import Mathlib

/-!
Verification development for the `streamlit-chat-prompt` Python package.

The development shallowly embeds the Python wrapper code:

* `src/template/streamlit_chat_prompt/__init__.py` — the revision carrying the
  image-size reducer `_process_image` and the prompt wrapper that invokes it;
* `src/streamlit_chat_prompt/__init__.py` — the release revision carrying the
  `FileData`/`PromptReturn` schema, the default-value marshaling, the
  module-level singleton-key registration and the uuid de-duplication logic.

Modelling conventions:

* Python byte strings are `List Nat` (one `Nat` per byte, values `< 256` where
  it matters); Python text strings are Lean `String`.
* Python floats (`0.95`, `scale_factor`, `quality * 0.95`) are modelled as
  exact rationals: `0.95` is `19/20`, the running `scale_factor` is kept as an
  unnormalized numerator/denominator pair `(19^k, 20^k)`, and Python's
  `int(...)` truncation on non-negative values is truncating `Nat` division.
* Raised exceptions are `Except.error`; `return None` is `Option.none` inside
  `Except.ok`.
* The PIL imaging library is modelled by a structure of abstract operations
  (`PILOps`): decoding, JPEG encoding, resizing and alpha-flattening are
  uninterpreted except for the structure the source relies on (dimensions and
  colour mode tracking, and the fact that the JPEG encoder rejects images whose
  mode carries an alpha channel — PIL raises `OSError: cannot write mode RGBA
  as JPEG`).
* `base64.b64encode` is implemented concretely so that encoded text length is
  measured on the exact textual representation, as the source does.
-/

/-! ## Python string splitting (`str.split` with a one-character separator) -/

/-- Python `s.split(sep)` for a single-character separator, on an explicit
character list.  `"".split(sep) == [""]`, separators at the ends produce empty
fields, exactly as in Python. -/
def splitOnChar : List Char → Char → List (List Char)
  | [], _ => [[]]
  | c :: cs, sep =>
    let r := splitOnChar cs sep
    if c = sep then [] :: r
    else
      match r with
      | [] => [[c]]
      | h :: t => (c :: h) :: t

/-- Python `s.split(sep)` for a single-character separator on `String`s. -/
def pySplit (s : String) (sep : Char) : List String :=
  (splitOnChar s.toList sep).map String.mk

deriving instance DecidableEq for Except

/-! ## Errors raised by the embedded code -/

/-- Exceptions the embedded Python code can raise: `IndexError` from indexing
the parts of a malformed data URI, a decode failure from
`base64.b64decode`/`PIL.Image.open` on a corrupt payload, and the `OSError`
PIL raises when asked to write an alpha-channel image as JPEG. -/
inductive ProcErr
  | indexError
  | decodeError
  | saveModeError
deriving DecidableEq, Repr

/-- Python `lst[i]`, raising `IndexError` when out of range. -/
def pyIndex (l : List String) (i : Nat) : Except ProcErr String :=
  match l.get? i with
  | some s => .ok s
  | none => .error .indexError

/-! ## The PIL image model -/

/-- PIL colour modes used by the source: `RGB`, greyscale `L`, and the two
alpha-carrying modes the source tests for, `RGBA` and `LA`. -/
inductive ImgMode
  | RGB
  | L
  | RGBA
  | LA
deriving DecidableEq, Repr

/-- Whether a mode carries an alpha channel (the modes the source flattens,
and the modes PIL's JPEG encoder rejects). -/
def ImgMode.hasAlpha : ImgMode → Bool
  | .RGBA => true
  | .LA => true
  | _ => false

/-- A decoded PIL image: pixel dimensions, colour mode, and an abstract
content tag standing for the pixel data. -/
structure Img where
  width : Nat
  height : Nat
  mode : ImgMode
  content : Nat
deriving DecidableEq, Repr

/-- The abstract imaging operations the source calls into PIL for.
`decodeImage` is `base64.b64decode` + `Image.open` (`none` on a corrupt
payload); `encJPEG` is the byte output of `img.save(..., format="JPEG",
quality=q, optimize=True)` for an image whose mode the JPEG encoder accepts;
`resizeContent`/`flattenContent` give the abstract pixel content of
`img.resize(...)` and of pasting onto a white RGB background. -/
structure PILOps where
  decodeImage : String → Option Img
  encJPEG : Img → Nat → List Nat
  resizeContent : Img → Nat → Nat → Nat
  flattenContent : Img → Nat

/-- `img.resize((w, h), Image.Resampling.LANCZOS)`: new dimensions, same
colour mode. -/
def resize (ops : PILOps) (img : Img) (w h : Nat) : Img :=
  ⟨w, h, img.mode, ops.resizeContent img w h⟩

/-- `Image.new("RGB", size, (255, 255, 255))` + `paste(img, mask=alpha)`:
same dimensions, mode `RGB`. -/
def flattenOnWhite (ops : PILOps) (img : Img) : Img :=
  ⟨img.width, img.height, ImgMode.RGB, ops.flattenContent img⟩

/-- `img.save(output, format="JPEG", quality=q, optimize=True)`: PIL raises
`OSError` when the mode carries an alpha channel, otherwise produces the
encoded bytes. -/
def saveJPEG (ops : PILOps) (img : Img) (quality : Nat) : Except ProcErr (List Nat) :=
  if img.mode.hasAlpha then .error .saveModeError
  else .ok (ops.encJPEG img quality)

/-! ## base64 encoding (`base64.b64encode(...).decode("utf-8")`) -/

/-- The standard base64 alphabet. -/
def b64chars : List Char :=
  "ABCDEFGHIJKLMNOPQRSTUVWXYZabcdefghijklmnopqrstuvwxyz0123456789+/".toList

/-- Character for a 6-bit group. -/
def b64char (n : Nat) : Char := b64chars.getD n 'A'

/-- Base64-encode a byte list, with `=` padding, three bytes to four
characters. -/
def b64aux : List Nat → List Char
  | a :: b :: c :: rest =>
    b64char (a / 4) :: b64char (a % 4 * 16 + b / 16) ::
      b64char (b % 16 * 4 + c / 64) :: b64char (c % 64) :: b64aux rest
  | [a, b] => [b64char (a / 4), b64char (a % 4 * 16 + b / 16), b64char (b % 16 * 4), '=']
  | [a] => [b64char (a / 4), b64char (a % 4 * 16), '=', '=']
  | [] => []

/-- `base64.b64encode(bytes).decode("utf-8")` as a Lean `String`. -/
def b64encode (bs : List Nat) : String := String.mk (b64aux bs)

/-! ## The image-size reducer `_process_image`
(`src/template/streamlit_chat_prompt/__init__.py`, lines 73–142) -/

/-- The `ImageData` pydantic model of the template revision. -/
structure ImageData where
  type : String
  format : String
  data : String
deriving DecidableEq, Repr

/-- The base64 text produced by re-encoding `img` to JPEG at a given quality:
`base64.b64encode(output.getvalue()).decode("utf-8")`. -/
def compData (ops : PILOps) (img : Img) (quality : Nat) : String :=
  b64encode (ops.encJPEG img quality)

/-- The compression-only ladder (`for i, quality in enumerate([100, 90, 80])`):
save as JPEG at each quality, measure the base64 text length, return the first
result at or under the budget; `ok none` means fall through to scaling. -/
def compPasses (ops : PILOps) (img : Img) (maxB64Size : Nat) :
    List Nat → Except ProcErr (Option ImageData)
  | [] => .ok none
  | q :: qs =>
    match saveJPEG ops img q with
    | .error e => .error e
    | .ok bytes =>
      let newData := b64encode bytes
      if newData.length ≤ maxB64Size then .ok (some ⟨"image/jpeg", "base64", newData⟩)
      else compPasses ops img maxB64Size qs

/-- The quality sequence of the scale rounds: `quality = 95` before the loop,
then `quality = int(quality * 0.95)` after each failed round (exact-rational
model of the float multiply, truncated). -/
def qSeq : Nat → Nat
  | 0 => 95
  | n + 1 => qSeq n * 19 / 20

/-- One scale round's image: resize the original to
`(int(img.width * scale_factor), int(img.height * scale_factor))` — the
`scale_factor` float held as the exact fraction `sfNum / sfDen` — then
flatten onto white if the resized mode is `RGBA` or `LA`. -/
def scaledRound (ops : PILOps) (img : Img) (sfNum sfDen : Nat) : Img :=
  let resizedImg := resize ops img
    (img.width * sfNum / sfDen)
    (img.height * sfNum / sfDen)
  if resizedImg.mode = ImgMode.RGBA ∨ resizedImg.mode = ImgMode.LA then
    flattenOnWhite ops resizedImg
  else resizedImg

/-- The scale+compress ladder (`for i, attempt in enumerate(range(5))`):
resize from the original each round, flatten alpha, save as JPEG, measure the
base64 text length; on failure multiply `scale_factor` by `0.95` (exactly:
numerator times `19`, denominator times `20`) and truncate `quality * 0.95`,
and return `ok none` when the five rounds are exhausted. -/
def scaleRounds (ops : PILOps) (img : Img) (maxB64Size : Nat) :
    Nat → Nat → Nat → Nat → Except ProcErr (Option ImageData)
  | 0, _, _, _ => .ok none
  | n + 1, sfNum, sfDen, quality =>
    let resizedImg := scaledRound ops img sfNum sfDen
    match saveJPEG ops resizedImg quality with
    | .error e => .error e
    | .ok bytes =>
      let newData := b64encode bytes
      if newData.length ≤ maxB64Size then .ok (some ⟨"image/jpeg", "base64", newData⟩)
      else scaleRounds ops img maxB64Size n (sfNum * 19) (sfDen * 20) (quality * 19 / 20)

/-- `_process_image` after the data-URI has been parsed into
`(image_type, image_format, image_data)`: the under-budget early return, the
decode, the compression-only ladder, then the scale+compress ladder. -/
def _process_image_parsed (ops : PILOps) (imageType imageFormat imageData : String)
    (maxB64Size : Nat) : Except ProcErr (Option ImageData) :=
  let b64Size := imageData.length
  if b64Size ≤ maxB64Size then .ok (some ⟨imageType, imageFormat, imageData⟩)
  else
    match ops.decodeImage imageData with
    | none => .error .decodeError
    | some img =>
      match compPasses ops img maxB64Size [100, 90, 80] with
      | .error e => .error e
      | .ok (some r) => .ok (some r)
      | .ok none => scaleRounds ops img maxB64Size 5 19 20 95

/-- The data-URI parsing at the top of `_process_image`:
`parts = image_str.split(";")`, `image_type = parts[0].split(":")[1]`,
`image_format = parts[1].split(",")[0]`, `image_data = parts[1].split(",")[1]`. -/
def parseDataURI (s : String) : Except ProcErr (String × String × String) :=
  let parts := pySplit s ';'
  match pyIndex parts 0 with
  | .error e => .error e
  | .ok p0 =>
    match pyIndex (pySplit p0 ':') 1 with
    | .error e => .error e
    | .ok imageType =>
      match pyIndex parts 1 with
      | .error e => .error e
      | .ok p1 =>
        match pyIndex (pySplit p1 ',') 0 with
        | .error e => .error e
        | .ok imageFormat =>
          match pyIndex (pySplit p1 ',') 1 with
          | .error e => .error e
          | .ok imageData => .ok (imageType, imageFormat, imageData)

/-- `_process_image(image_str, max_b64_size)` of the template revision. -/
def _process_image (ops : PILOps) (imageStr : String) (maxB64Size : Nat) :
    Except ProcErr (Option ImageData) :=
  match parseDataURI imageStr with
  | .error e => .error e
  | .ok (t, f, d) => _process_image_parsed ops t f d maxB64Size

/-- The image loop of the template revision's `prompt`
(lines 257–270): process each data-URI in order; a raised exception
propagates, and the first image the reducer gives up on makes the whole
submission return `None`. -/
def processImagesTemplate (ops : PILOps) (maxB64Size : Nat) :
    List String → Except ProcErr (Option (List ImageData))
  | [] => .ok (some [])
  | s :: rest =>
    match _process_image ops s maxB64Size with
    | .error e => .error e
    | .ok none => .ok none
    | .ok (some d) =>
      match processImagesTemplate ops maxB64Size rest with
      | .error e => .error e
      | .ok none => .ok none
      | .ok (some ds) => .ok (some (d :: ds))

/-! ## Instrumented reducer for the termination/fuel claim

A copy of the reducer that additionally counts the number of JPEG-encoding
attempts (`img.save` calls), to state the bounded-ladder property. -/

/-- `compPasses` with a count of `save` attempts. -/
def compPassesC (ops : PILOps) (img : Img) (maxB64Size : Nat) :
    List Nat → (Except ProcErr (Option ImageData)) × Nat
  | [] => (.ok none, 0)
  | q :: qs =>
    match saveJPEG ops img q with
    | .error e => (.error e, 1)
    | .ok bytes =>
      let newData := b64encode bytes
      if newData.length ≤ maxB64Size then (.ok (some ⟨"image/jpeg", "base64", newData⟩), 1)
      else
        let r := compPassesC ops img maxB64Size qs
        (r.1, r.2 + 1)

/-- `scaleRounds` with a count of `save` attempts. -/
def scaleRoundsC (ops : PILOps) (img : Img) (maxB64Size : Nat) :
    Nat → Nat → Nat → Nat → (Except ProcErr (Option ImageData)) × Nat
  | 0, _, _, _ => (.ok none, 0)
  | n + 1, sfNum, sfDen, quality =>
    let resizedImg := scaledRound ops img sfNum sfDen
    match saveJPEG ops resizedImg quality with
    | .error e => (.error e, 1)
    | .ok bytes =>
      let newData := b64encode bytes
      if newData.length ≤ maxB64Size then (.ok (some ⟨"image/jpeg", "base64", newData⟩), 1)
      else
        let r := scaleRoundsC ops img maxB64Size n (sfNum * 19) (sfDen * 20) (quality * 19 / 20)
        (r.1, r.2 + 1)

/-- `_process_image_parsed` with a count of `save` attempts. -/
def _process_image_counted (ops : PILOps) (imageType imageFormat imageData : String)
    (maxB64Size : Nat) : (Except ProcErr (Option ImageData)) × Nat :=
  if imageData.length ≤ maxB64Size then (.ok (some ⟨imageType, imageFormat, imageData⟩), 0)
  else
    match ops.decodeImage imageData with
    | none => (.error .decodeError, 0)
    | some img =>
      let c := compPassesC ops img maxB64Size [100, 90, 80]
      match c.1 with
      | .error e => (.error e, c.2)
      | .ok (some r) => (.ok (some r), c.2)
      | .ok none =>
        let s := scaleRoundsC ops img maxB64Size 5 19 20 95
        (s.1, c.2 + s.2)

/-! ## Round-indexed description of the scale ladder -/

/-- The base64 text produced by scale round `k` (1-based): the original image
resized by the exact factor `19^k / 20^k`, flattened if its mode carries
alpha, and JPEG-encoded at quality `qSeq (k-1)` (95, 90, 85, 80, 76). -/
def roundData (ops : PILOps) (img : Img) (k : Nat) : String :=
  b64encode (ops.encJPEG (scaledRound ops img (19 ^ k) (20 ^ k)) (qSeq (k - 1)))

/-! ## Helper lemmas -/

lemma scaledRound_noAlpha (ops : PILOps) (img : Img) (sfNum sfDen : Nat) :
    (scaledRound ops img sfNum sfDen).mode.hasAlpha = false := by
  unfold scaledRound resize flattenOnWhite
  cases img.mode <;> simp [ImgMode.hasAlpha]

lemma saveJPEG_of_noAlpha (ops : PILOps) (img : Img) (q : Nat)
    (h : img.mode.hasAlpha = false) :
    saveJPEG ops img q = .ok (ops.encJPEG img q) := by
  simp [saveJPEG, h]

lemma compPasses_none (ops : PILOps) (img : Img) (maxB64Size : Nat)
    (h : img.mode.hasAlpha = false) :
    ∀ qs : List Nat, (∀ q ∈ qs, maxB64Size < (compData ops img q).length) →
    compPasses ops img maxB64Size qs = .ok none := by
  intro qs
  induction qs with
  | nil => intro _; rfl
  | cons a qs ih =>
    intro hall
    have ha : maxB64Size < (compData ops img a).length := hall a (by simp)
    simp only [compData] at ha
    simp only [compPasses, saveJPEG_of_noAlpha ops img a h]
    rw [if_neg (not_le.mpr ha)]
    exact ih fun q hq => hall q (by simp [hq])

lemma compPasses_find (ops : PILOps) (img : Img) (maxB64Size : Nat)
    (h : img.mode.hasAlpha = false) :
    ∀ qs q, qs.find? (fun x => decide ((compData ops img x).length ≤ maxB64Size)) = some q →
    compPasses ops img maxB64Size qs =
      .ok (some ⟨"image/jpeg", "base64", compData ops img q⟩) := by
  intro qs
  induction qs with
  | nil => intro q hq; simp [List.find?] at hq
  | cons a qs ih =>
    intro q hq
    rw [List.find?_cons] at hq
    by_cases ha : (compData ops img a).length ≤ maxB64Size
    · simp [ha] at hq
      subst hq
      simp only [compPasses, saveJPEG_of_noAlpha ops img a h]
      rw [if_pos (show (b64encode (ops.encJPEG img a)).length ≤ maxB64Size from ha)]
      rfl
    · simp [ha] at hq
      simp only [compPasses, saveJPEG_of_noAlpha ops img a h]
      rw [if_neg (by simpa [compData] using ha)]
      exact ih q hq

lemma process_unfold_over (ops : PILOps) (t f d : String) (maxB64Size : Nat) (img : Img)
    (hover : maxB64Size < d.length) (hdec : ops.decodeImage d = some img) :
    _process_image_parsed ops t f d maxB64Size =
      match compPasses ops img maxB64Size [100, 90, 80] with
      | .error e => .error e
      | .ok (some r) => .ok (some r)
      | .ok none => scaleRounds ops img maxB64Size 5 19 20 95 := by
  unfold _process_image_parsed
  rw [if_neg (not_le.mpr hover), hdec]

lemma scaleRounds_none (ops : PILOps) (img : Img) (maxB64Size : Nat) :
    ∀ n i, (∀ j, j < n → maxB64Size < (roundData ops img (i + 1 + j)).length) →
    scaleRounds ops img maxB64Size n (19 ^ (i + 1)) (20 ^ (i + 1)) (qSeq i) = .ok none := by
  intro n
  induction n with
  | zero => intro i _; rfl
  | succ n ih =>
    intro i hall
    have h0 : maxB64Size < (roundData ops img (i + 1)).length := by
      simpa using hall 0 (Nat.succ_pos n)
    simp only [roundData, Nat.add_sub_cancel] at h0
    simp only [scaleRounds,
      saveJPEG_of_noAlpha ops _ (qSeq i) (scaledRound_noAlpha ops img (19 ^ (i + 1)) (20 ^ (i + 1)))]
    rw [if_neg (not_le.mpr h0)]
    rw [← pow_succ 19 (i + 1), ← pow_succ 20 (i + 1)]
    have hq : qSeq i * 19 / 20 = qSeq (i + 1) := rfl
    rw [hq]
    refine ih (i + 1) fun j hj => ?_
    have := hall (j + 1) (Nat.succ_lt_succ hj)
    have harith : i + 1 + (j + 1) = i + 1 + 1 + j := by omega
    rwa [harith] at this

lemma scaleRounds_first (ops : PILOps) (img : Img) (maxB64Size : Nat) :
    ∀ n i m, m < n → (roundData ops img (i + 1 + m)).length ≤ maxB64Size →
    (∀ j, j < m → maxB64Size < (roundData ops img (i + 1 + j)).length) →
    scaleRounds ops img maxB64Size n (19 ^ (i + 1)) (20 ^ (i + 1)) (qSeq i) =
      .ok (some ⟨"image/jpeg", "base64", roundData ops img (i + 1 + m)⟩) := by
  intro n
  induction n with
  | zero => intro i m hm; omega
  | succ n ih =>
    intro i m hm hok hmin
    simp only [scaleRounds,
      saveJPEG_of_noAlpha ops _ (qSeq i) (scaledRound_noAlpha ops img (19 ^ (i + 1)) (20 ^ (i + 1)))]
    cases m with
    | zero =>
      simp only [Nat.add_zero] at hok
      have hok' := hok
      simp only [roundData, Nat.add_sub_cancel] at hok'
      rw [if_pos hok']
      simp only [Nat.add_zero, roundData, Nat.add_sub_cancel]
    | succ m' =>
      have hfail : maxB64Size < (roundData ops img (i + 1)).length := by
        simpa using hmin 0 (Nat.succ_pos m')
      simp only [roundData, Nat.add_sub_cancel] at hfail
      rw [if_neg (not_le.mpr hfail)]
      rw [← pow_succ 19 (i + 1), ← pow_succ 20 (i + 1)]
      have hq : qSeq i * 19 / 20 = qSeq (i + 1) := rfl
      rw [hq]
      have harith : i + 1 + (m' + 1) = i + 1 + 1 + m' := by omega
      rw [harith] at hok ⊢
      refine ih (i + 1) m' (by omega) hok fun j hj => ?_
      have := hmin (j + 1) (Nat.succ_lt_succ hj)
      have harith2 : i + 1 + (j + 1) = i + 1 + 1 + j := by omega
      rwa [harith2] at this

lemma compPasses_le (ops : PILOps) (img : Img) (maxB64Size : Nat) :
    ∀ qs r, compPasses ops img maxB64Size qs = .ok (some r) → r.data.length ≤ maxB64Size := by
  intro qs
  induction qs with
  | nil => intro r hr; simp [compPasses] at hr
  | cons a qs ih =>
    intro r hr
    cases hs : saveJPEG ops img a with
    | error e => simp [compPasses, hs] at hr
    | ok bytes =>
      simp only [compPasses, hs] at hr
      by_cases hb : (b64encode bytes).length ≤ maxB64Size
      · rw [if_pos hb] at hr
        simp only [Except.ok.injEq, Option.some.injEq] at hr
        subst hr
        simpa using hb
      · rw [if_neg hb] at hr
        exact ih r hr

lemma scaleRounds_le (ops : PILOps) (img : Img) (maxB64Size : Nat) :
    ∀ n sfNum sfDen q r, scaleRounds ops img maxB64Size n sfNum sfDen q = .ok (some r) →
    r.data.length ≤ maxB64Size := by
  intro n
  induction n with
  | zero => intro _ _ _ r hr; simp [scaleRounds] at hr
  | succ n ih =>
    intro sfNum sfDen q r hr
    cases hs : saveJPEG ops (scaledRound ops img sfNum sfDen) q with
    | error e => simp [scaleRounds, hs] at hr
    | ok bytes =>
      simp only [scaleRounds, hs] at hr
      by_cases hb : (b64encode bytes).length ≤ maxB64Size
      · rw [if_pos hb] at hr
        simp only [Except.ok.injEq, Option.some.injEq] at hr
        subst hr
        simpa using hb
      · rw [if_neg hb] at hr
        exact ih _ _ _ r hr

lemma compPassesC_fst (ops : PILOps) (img : Img) (maxB64Size : Nat) :
    ∀ qs, (compPassesC ops img maxB64Size qs).1 = compPasses ops img maxB64Size qs := by
  intro qs
  induction qs with
  | nil => rfl
  | cons a qs ih =>
    cases hs : saveJPEG ops img a with
    | error e => simp [compPassesC, compPasses, hs]
    | ok bytes =>
      simp only [compPassesC, compPasses, hs]
      split_ifs with hb
      · rfl
      · simpa using ih

lemma compPassesC_cnt (ops : PILOps) (img : Img) (maxB64Size : Nat) :
    ∀ qs : List Nat, (compPassesC ops img maxB64Size qs).2 ≤ qs.length := by
  intro qs
  induction qs with
  | nil => exact Nat.le_refl 0
  | cons a qs ih =>
    cases hs : saveJPEG ops img a with
    | error e => simp [compPassesC, hs]
    | ok bytes =>
      simp only [compPassesC, hs]
      split_ifs with hb
      · simp
      · simpa using Nat.succ_le_succ ih

lemma scaleRoundsC_fst (ops : PILOps) (img : Img) (maxB64Size : Nat) :
    ∀ n sfNum sfDen q, (scaleRoundsC ops img maxB64Size n sfNum sfDen q).1 =
      scaleRounds ops img maxB64Size n sfNum sfDen q := by
  intro n
  induction n with
  | zero => intro _ _ _; rfl
  | succ n ih =>
    intro sfNum sfDen q
    cases hs : saveJPEG ops (scaledRound ops img sfNum sfDen) q with
    | error e => simp [scaleRoundsC, scaleRounds, hs]
    | ok bytes =>
      simp only [scaleRoundsC, scaleRounds, hs]
      split_ifs with hb
      · rfl
      · simpa using ih _ _ _

lemma scaleRoundsC_cnt (ops : PILOps) (img : Img) (maxB64Size : Nat) :
    ∀ n sfNum sfDen q, (scaleRoundsC ops img maxB64Size n sfNum sfDen q).2 ≤ n := by
  intro n
  induction n with
  | zero => intro _ _ _; exact Nat.le_refl 0
  | succ n ih =>
    intro sfNum sfDen q
    cases hs : saveJPEG ops (scaledRound ops img sfNum sfDen) q with
    | error e => simp [scaleRoundsC, hs]
    | ok bytes =>
      simp only [scaleRoundsC, hs]
      split_ifs with hb
      · simp
      · simpa using Nat.succ_le_succ (ih _ _ _)

/-! ## Concrete PIL models used for witnesses and counterexamples -/

/-- A model whose decode yields an oversized `RGBA` image and whose JPEG
encoder produces a single byte (so the very first compression pass would fit
any positive budget). -/
def opsAlphaSmallJPEG : PILOps :=
  ⟨fun _ => some ⟨8, 8, ImgMode.RGBA, 0⟩, fun _ _ => [0], fun _ _ _ => 0, fun _ => 0⟩

/-- A model whose decode yields an `RGB` image and whose JPEG encoder needs
quality below 95 to fit a budget of 5 (9 bytes at quality 95 or above, 1 byte
below). -/
def opsSecondPassFits : PILOps :=
  ⟨fun _ => some ⟨7, 5, ImgMode.RGB, 3⟩,
   fun _ q => if 95 ≤ q then [0, 0, 0, 0, 0, 0, 0, 0, 0] else [0],
   fun _ _ _ => 0, fun _ => 0⟩

/-- A model whose JPEG output fits a budget of 5 exactly when the image has
been scaled to width at most 90 (original width 100). -/
def opsScaleRoundTwo : PILOps :=
  ⟨fun _ => some ⟨100, 80, ImgMode.RGB, 0⟩,
   fun i _ => if i.width ≤ 90 then [0] else [0, 0, 0, 0, 0, 0, 0, 0, 0],
   fun _ _ _ => 0, fun _ => 0⟩

/-- A model whose decode always fails (corrupt payload) and which is also a
convenient vacuous model for under-budget inputs, which are never decoded. -/
def opsTrivial : PILOps :=
  ⟨fun _ => none, fun _ _ => [], fun _ _ _ => 0, fun _ => 0⟩

/-- A model whose decode yields an oversized `LA` (greyscale+alpha) image. -/
def opsAlphaLA : PILOps :=
  ⟨fun _ => some ⟨10, 10, ImgMode.LA, 1⟩, fun _ _ => [0, 1], fun _ _ _ => 0, fun _ => 0⟩

/-- A model whose JPEG encoder always produces 9 bytes (12 base64 characters),
so that no pass and no round ever fits a budget of 5. -/
def opsNeverFits : PILOps :=
  ⟨fun _ => some ⟨4, 4, ImgMode.RGB, 0⟩, fun _ _ => [0, 0, 0, 0, 0, 0, 0, 0, 0],
   fun _ _ _ => 0, fun _ => 0⟩

/-! ## Claims C1–C7: the image-size reducer -/

/-- Claim C1 (as stated, over all oversized inputs) is false: for an oversized
image that decodes to `RGBA` mode, the first JPEG re-encode of the
compression-only ladder raises (PIL cannot write alpha modes as JPEG), even
though the pass at quality 100 would have satisfied the budget — the reducer
does not return the first satisfying pass. -/
theorem claim_C1_counterexample :
    opsAlphaSmallJPEG.decodeImage "AAAAAAAAAA" = some ⟨8, 8, ImgMode.RGBA, 0⟩
    ∧ 5 < "AAAAAAAAAA".length
    ∧ (compData opsAlphaSmallJPEG ⟨8, 8, ImgMode.RGBA, 0⟩ 100).length ≤ 5
    ∧ _process_image opsAlphaSmallJPEG "data:image/png;base64,AAAAAAAAAA" 5 =
        .error .saveModeError := by
  decide

/-- Claim C1, amended to oversized inputs whose decoded image carries no alpha
channel: the reducer attempts compression-only passes at qualities 100, 90, 80,
measuring the base64 text length of each JPEG re-encode against the budget, and
returns the first satisfying pass; the returned payload is an encoding of the
original decoded image `img` itself (same pixel dimensions, no scaling). -/
theorem claim_C1_compression_only (ops : PILOps) (t f d : String) (maxB64Size : Nat)
    (img : Img) (q : Nat)
    (hdec : ops.decodeImage d = some img)
    (halpha : img.mode.hasAlpha = false)
    (hover : maxB64Size < d.length)
    (hfind : [100, 90, 80].find?
      (fun x => decide ((compData ops img x).length ≤ maxB64Size)) = some q) :
    _process_image_parsed ops t f d maxB64Size =
      .ok (some ⟨"image/jpeg", "base64", compData ops img q⟩) := by
  rw [process_unfold_over ops t f d maxB64Size img hover hdec,
    compPasses_find ops img maxB64Size halpha _ q hfind]

/-- Witness for C1: a concrete model where the pass at quality 100 is too
large and the pass at quality 90 fits. -/
theorem claim_C1_witness :
    _process_image_parsed opsSecondPassFits "image/png" "base64" "AAAAAAAAAA" 5 =
      .ok (some ⟨"image/jpeg", "base64",
        compData opsSecondPassFits ⟨7, 5, ImgMode.RGB, 3⟩ 90⟩) :=
  claim_C1_compression_only opsSecondPassFits "image/png" "base64" "AAAAAAAAAA" 5
    ⟨7, 5, ImgMode.RGB, 3⟩ 90 rfl rfl (by decide) (by decide)

/-- Claim C2: when the compression-only ladder completes without satisfying
the budget, the reducer runs at most five scale+compress rounds; at round `k`
(1-based, `k ≤ 5`) the image is resized from the original to
`int(original_dimension * 0.95^k)` (exactly `dim * 19^k / 20^k`), the quality
is reduced by the 0.95 ratio each round (`qSeq`), the result is re-encoded to
JPEG and its base64 text length measured, and the first satisfying round's
payload is returned. -/
theorem claim_C2_scale_rounds (ops : PILOps) (t f d : String) (maxB64Size : Nat)
    (img : Img) (k : Nat)
    (hdec : ops.decodeImage d = some img)
    (halpha : img.mode.hasAlpha = false)
    (hover : maxB64Size < d.length)
    (hcomp : ∀ q ∈ [100, 90, 80], maxB64Size < (compData ops img q).length)
    (hk1 : 1 ≤ k) (hk5 : k ≤ 5)
    (hok : (roundData ops img k).length ≤ maxB64Size)
    (hmin : ∀ j, j < k → 1 ≤ j → maxB64Size < (roundData ops img j).length) :
    _process_image_parsed ops t f d maxB64Size =
      .ok (some ⟨"image/jpeg", "base64", roundData ops img k⟩)
    ∧ (scaledRound ops img (19 ^ k) (20 ^ k)).width = img.width * 19 ^ k / 20 ^ k
    ∧ (scaledRound ops img (19 ^ k) (20 ^ k)).height = img.height * 19 ^ k / 20 ^ k := by
  refine ⟨?_, ?_, ?_⟩
  · rw [process_unfold_over ops t f d maxB64Size img hover hdec,
      compPasses_none ops img maxB64Size halpha _ hcomp]
    have hk : 0 + 1 + (k - 1) = k := by omega
    have hmain := scaleRounds_first ops img maxB64Size 5 0 (k - 1) (by omega)
      (by rw [hk]; exact hok)
      (fun j hj => by
        have hlt := hmin (j + 1) (by omega) (by omega)
        have e : 0 + 1 + j = j + 1 := by omega
        rw [e]; exact hlt)
    rw [hk] at hmain
    simpa [qSeq] using hmain
  · simp only [scaledRound]
    split <;> rfl
  · simp only [scaledRound]
    split <;> rfl

/-- Witness for C2: a concrete model where both compression passes and round 1
(width 95) fail, and round 2 (width `int(100 * 0.95^2) = 90`) fits. -/
theorem claim_C2_witness :
    _process_image_parsed opsScaleRoundTwo "image/png" "base64" "AAAAAAAAAA" 5 =
      .ok (some ⟨"image/jpeg", "base64",
        roundData opsScaleRoundTwo ⟨100, 80, ImgMode.RGB, 0⟩ 2⟩)
    ∧ (scaledRound opsScaleRoundTwo ⟨100, 80, ImgMode.RGB, 0⟩ (19 ^ 2) (20 ^ 2)).width =
        100 * 19 ^ 2 / 20 ^ 2
    ∧ (scaledRound opsScaleRoundTwo ⟨100, 80, ImgMode.RGB, 0⟩ (19 ^ 2) (20 ^ 2)).height =
        80 * 19 ^ 2 / 20 ^ 2 :=
  claim_C2_scale_rounds opsScaleRoundTwo "image/png" "base64" "AAAAAAAAAA" 5
    ⟨100, 80, ImgMode.RGB, 0⟩ 2 rfl rfl (by decide) (by decide) (by decide) (by decide)
    (by decide) (by decide)

/-- Claim C3: an input whose base64 text length is at or under the budget is
returned unchanged — same media type, same format, same data — with no decode
or transformation. -/
theorem claim_C3_under_budget (ops : PILOps) (t f d : String) (maxB64Size : Nat)
    (h : d.length ≤ maxB64Size) :
    _process_image_parsed ops t f d maxB64Size = .ok (some ⟨t, f, d⟩) := by
  simp [_process_image_parsed, h]

/-- Witness for C3 at a concrete under-budget input (note the model's decode
always fails, so the unchanged return also shows no decode is attempted). -/
theorem claim_C3_witness :
    _process_image_parsed opsTrivial "image/png" "base64" "AAAA" 10 =
      .ok (some ⟨"image/png", "base64", "AAAA"⟩) :=
  claim_C3_under_budget opsTrivial "image/png" "base64" "AAAA" 10 (by decide)

/-- Claim C4 names the intended behaviour (flatten alpha before every lossy
re-encode, including the compression-only passes), but the source flattens
only inside the scale loop: at an oversized `LA` input the first
compression-only JPEG save raises instead of succeeding. This theorem
evaluates the code at the failing input. -/
theorem claim_C4_code_bug :
    opsAlphaLA.decodeImage "AAAAAAAAAAAA" = some ⟨10, 10, ImgMode.LA, 1⟩
    ∧ (⟨10, 10, ImgMode.LA, 1⟩ : Img).mode.hasAlpha = true
    ∧ 6 < "AAAAAAAAAAAA".length
    ∧ _process_image opsAlphaLA "data:image/png;base64,AAAAAAAAAAAA" 6 =
        .error .saveModeError := by
  decide

/-- Claim C5: (1) when neither the three compression-only passes nor the five
scale+compress rounds satisfy the budget, the reducer returns the explicit
failure signal `None`; (2) any successful result is at or under the budget
(never a partial or over-budget payload); (3) the caller (the template
revision's `prompt` image loop) discards the whole submission, returning
`None`, when the reducer gives up on an image. -/
theorem claim_C5_explicit_failure :
    (∀ (ops : PILOps) (t f d : String) (maxB64Size : Nat) (img : Img),
      ops.decodeImage d = some img → img.mode.hasAlpha = false →
      maxB64Size < d.length →
      (∀ q ∈ [100, 90, 80], maxB64Size < (compData ops img q).length) →
      (∀ j, j < 5 → maxB64Size < (roundData ops img (j + 1)).length) →
      _process_image_parsed ops t f d maxB64Size = .ok none)
    ∧ (∀ (ops : PILOps) (t f d : String) (maxB64Size : Nat) (r : ImageData),
      _process_image_parsed ops t f d maxB64Size = .ok (some r) →
      r.data.length ≤ maxB64Size)
    ∧ (∀ (ops : PILOps) (maxB64Size : Nat) (s : String) (rest : List String),
      _process_image ops s maxB64Size = .ok none →
      processImagesTemplate ops maxB64Size (s :: rest) = .ok none) := by
  refine ⟨?_, ?_, ?_⟩
  · intro ops t f d maxB64Size img hdec halpha hover hcomp hround
    rw [process_unfold_over ops t f d maxB64Size img hover hdec,
      compPasses_none ops img maxB64Size halpha _ hcomp]
    have h := scaleRounds_none ops img maxB64Size 5 0
      (fun j hj => by
        have hlt := hround j hj
        have e : 0 + 1 + j = j + 1 := by omega
        rw [e]; exact hlt)
    simpa [qSeq] using h
  · intro ops t f d maxB64Size r hr
    simp only [_process_image_parsed] at hr
    by_cases h : d.length ≤ maxB64Size
    · rw [if_pos h] at hr
      simp only [Except.ok.injEq, Option.some.injEq] at hr
      subst hr
      simpa using h
    · rw [if_neg h] at hr
      cases hdec : ops.decodeImage d with
      | none => simp [hdec] at hr
      | some img =>
        simp only [hdec] at hr
        cases hc : compPasses ops img maxB64Size [100, 90, 80] with
        | error e => simp [hc] at hr
        | ok o =>
          cases o with
          | some r2 =>
            simp only [hc, Except.ok.injEq, Option.some.injEq] at hr
            subst hr
            exact compPasses_le ops img maxB64Size _ _ hc
          | none =>
            simp only [hc] at hr
            exact scaleRounds_le ops img maxB64Size 5 19 20 95 r hr
  · intro ops maxB64Size s rest h
    simp [processImagesTemplate, h]

/-- Witness for C5 at a concrete model where every encode yields 12 base64
characters against a budget of 5. -/
theorem claim_C5_witness :
    _process_image_parsed opsNeverFits "image/png" "base64" "AAAAAAAAAA" 5 = .ok none :=
  claim_C5_explicit_failure.1 opsNeverFits "image/png" "base64" "AAAAAAAAAA" 5
    ⟨4, 4, ImgMode.RGB, 0⟩ rfl rfl (by decide) (by decide) (by decide)

/-- Claim C6 (as stated, over- or under-budget alike) is false: a corrupt
payload whose base64 text is already at or under the budget is returned
unchanged — the reducer never decodes it, so no fatal error is raised. -/
theorem claim_C6_counterexample :
    opsTrivial.decodeImage "xx" = none
    ∧ _process_image opsTrivial "data:image/png;base64,xx" 100 =
        .ok (some ⟨"image/png", "base64", "xx"⟩) := by
  decide

/-- Claim C6, amended to payloads whose encoded size exceeds the budget: a
payload that does not decode to a valid image propagates a fatal decode error
(never a silent empty or unchanged result). -/
theorem claim_C6_decode_error (ops : PILOps) (t f d : String) (maxB64Size : Nat)
    (hcorrupt : ops.decodeImage d = none) (hover : maxB64Size < d.length) :
    _process_image_parsed ops t f d maxB64Size = .error .decodeError := by
  unfold _process_image_parsed
  rw [if_neg (not_le.mpr hover), hcorrupt]

/-- Witness for C6 at a concrete oversized corrupt payload. -/
theorem claim_C6_witness :
    _process_image_parsed opsTrivial "image/png" "base64" "AAAAAAAA" 4 =
      .error .decodeError :=
  claim_C6_decode_error opsTrivial "image/png" "base64" "AAAAAAAA" 4 rfl (by decide)

/-- Claim C7: the reducer always terminates within the bounded ladder — the
instrumented copy agrees with the reducer and performs at most 3 + 5 = 8
JPEG-encode attempts on any input whatsoever. -/
theorem claim_C7_termination (ops : PILOps) (t f d : String) (maxB64Size : Nat) :
    (_process_image_counted ops t f d maxB64Size).1 =
      _process_image_parsed ops t f d maxB64Size
    ∧ (_process_image_counted ops t f d maxB64Size).2 ≤ 8 := by
  constructor
  · simp only [_process_image_counted, _process_image_parsed]
    by_cases h : d.length ≤ maxB64Size
    · simp [h]
    · rw [if_neg h, if_neg h]
      cases hdec : ops.decodeImage d with
      | none => rfl
      | some img =>
        simp only [compPassesC_fst]
        cases hc : compPasses ops img maxB64Size [100, 90, 80] with
        | error e => simp [hc]
        | ok o =>
          cases o with
          | some r => simp [hc]
          | none => simp [hc, scaleRoundsC_fst]
  · simp only [_process_image_counted]
    by_cases h : d.length ≤ maxB64Size
    · simp [h]
    · rw [if_neg h]
      cases hdec : ops.decodeImage d with
      | none => simp
      | some img =>
        have h1 := compPassesC_cnt ops img maxB64Size [100, 90, 80]
        have h2 := scaleRoundsC_cnt ops img maxB64Size 5 19 20 95
        simp only [List.length_cons, List.length_nil] at h1
        cases hc : (compPassesC ops img maxB64Size [100, 90, 80]).1 with
        | error e => simp only [hc]; omega
        | ok o =>
          cases o with
          | some r => simp only [hc]; omega
          | none => simp only [hc]; omega

/-! ## The release revision (`src/streamlit_chat_prompt/__init__.py`) -/

/-- The `FileData` pydantic model (release revision): `type`, `format`,
`data`, and the optional `name`, `size` and `file_type` fields (defaults
`None`). -/
structure FileData where
  type : String
  format : String
  data : String
  name : Option String
  size : Option Nat
  fileType : Option String
deriving DecidableEq, Repr

/-- Python `s.startswith(pre)`. -/
def pyStartsWith (s pre : String) : Bool := pre.toList.isPrefixOf s.toList

/-- `FileData.is_image`: `self.type.startswith("image/")`. -/
def FileData.is_image (f : FileData) : Bool := pyStartsWith f.type "image/"

/-- The `PromptReturn` pydantic model (release revision): optional `text`,
`files` and `uuid`. -/
structure PromptReturn where
  text : Option String
  files : Option (List FileData)
  uuid : Option String
deriving DecidableEq, Repr

/-- The `PromptReturn.images` property: `[]` when `files` is falsy, else the
files whose media type starts with `image/`. -/
def PromptReturn.images (pr : PromptReturn) : List FileData :=
  match pr.files with
  | none => []
  | some fs => fs.filter (fun f => f.is_image)

/-- Python `x or dflt` for an optional string (`None` and `""` are falsy). -/
def pyOr (o : Option String) (dflt : String) : String :=
  match o with
  | none => dflt
  | some s => if s = "" then dflt else s

/-- Python truthiness of an optional string (`None` and `""` are falsy). -/
def pyTruthyStr : Option String → Bool
  | none => false
  | some s => !(s == "")

/-- The data-URI text built for a file in the `default_value` marshaling:
`f"data:{f.type};{f.format},{f.data}"`. -/
def fileDataURI (f : FileData) : String :=
  "data:" ++ f.type ++ ";" ++ f.format ++ "," ++ f.data

/-- One entry of the marshaled `processed_files` list (a dict with `data`,
`type` and `name` keys). -/
structure ProcessedEntry where
  data : String
  type : String
  name : String
deriving DecidableEq, Repr

/-- The wire-format `default_value` dict: `text`, `files`, `uuid`. -/
structure DefaultValue where
  text : String
  files : List ProcessedEntry
  uuid : Option String
deriving DecidableEq, Repr

/-- Entry appended for each legacy image (`name` is the literal "image"). -/
def marshalImageEntry (img : FileData) : ProcessedEntry :=
  ⟨fileDataURI img, img.type, "image"⟩

/-- Entry appended for each file (`name` is `getattr(file, "name", None) or
"file"`). -/
def marshalFileEntry (f : FileData) : ProcessedEntry :=
  ⟨fileDataURI f, f.type, pyOr f.name "file"⟩

/-- The `default_value` marshaling of `prompt` (release revision, lines
204–235): `None` stays `None`; otherwise every legacy image contributes an
entry, then every file contributes an entry, the text is `default.text or ""`
and the uuid is the literal `None`. -/
def marshalDefault : Option PromptReturn → Option DefaultValue
  | none => none
  | some d =>
    some ⟨pyOr d.text "",
      d.images.map marshalImageEntry ++ (d.files.getD []).map marshalFileEntry,
      none⟩

/-- A raw file entry of the component payload: either a data-URL string or an
already-structured dict. -/
inductive CompFile
  | url (s : String)
  | dict (fd : FileData)
deriving DecidableEq, Repr

/-- The component payload dict (`component_value`): `text`, `files`, `uuid`.
`Option ComponentValue` models Python's `None`-or-dict. -/
structure ComponentValue where
  text : Option String
  files : Option (List CompFile)
  uuid : Option String
deriving DecidableEq, Repr

/-- Parsing a data-URL file string in the release `prompt` (same split logic
as the reducer's URI parse), producing `FileData(type, format, data,
name=None)`. -/
def parseFileURL (s : String) : Except ProcErr FileData :=
  match parseDataURI s with
  | .error e => .error e
  | .ok (t, f, d) => .ok ⟨t, f, d, none, none, none⟩

/-- The `processed_files` loop of the release `prompt` (lines 290–327):
data-URL strings are parsed, dicts are taken as-is, in order. -/
def processFilesRec : List CompFile → Except ProcErr (List FileData)
  | [] => .ok []
  | .url s :: rest =>
    match parseFileURL s with
    | .error e => .error e
    | .ok fd =>
      match processFilesRec rest with
      | .error e => .error e
      | .ok r => .ok (fd :: r)
  | .dict fd :: rest =>
    match processFilesRec rest with
    | .error e => .error e
    | .ok r => .ok (fd :: r)

/-- The return-value handling of the release `prompt` (lines 279–339), as a
transition on the per-key session state `chat_prompt_{key}_prev_uuid`: given
the previously recorded uuid and the component payload, produce the new
recorded uuid and the value `prompt` returns.  A payload is accepted when it
is present, its uuid differs from the recorded one and its uuid is not
`None`; an accepted payload records its uuid, and yields `None` anyway when
it carries no files and falsy text. -/
def promptHandle (prevUuid : Option String) (cvo : Option ComponentValue) :
    Except ProcErr (Option String × Option PromptReturn) :=
  match cvo with
  | none => .ok (prevUuid, none)
  | some cv =>
    if cv.uuid ≠ prevUuid ∧ cv.uuid ≠ none then
      match processFilesRec (cv.files.getD []) with
      | .error e => .error e
      | .ok processedFiles =>
        if processedFiles = [] ∧ pyTruthyStr cv.text = false then .ok (cv.uuid, none)
        else .ok (cv.uuid, some ⟨cv.text, some processedFiles, cv.uuid⟩)
    else .ok (prevUuid, none)

/-- Python truthiness of the module-level singleton key (`None` and `""` are
falsy). -/
def pyTruthyKey : Option String → Bool
  | none => false
  | some s => !(s == "")

/-- The `RuntimeError` raised on a second prompt registration. -/
inductive RuntimeErr
  | multipleInstances
deriving DecidableEq, Repr

/-- The singleton-key registration step of `prompt` (release revision, lines
237–245), as a transition on the module-level `_prompt_main_singleton_key`:
when `main_bottom` is true, raise if the recorded key is truthy and differs
from `key`, else record `key`; when `main_bottom` is false the whole block is
skipped. -/
def promptRegister (singleton : Option String) (key : String) (mainBottom : Bool) :
    Except RuntimeErr (Option String) :=
  if mainBottom then
    if pyTruthyKey singleton = true ∧ singleton ≠ some key then
      .error .multipleInstances
    else .ok (some key)
  else .ok singleton

/-! ## Claims C8–C10: the release prompt wrapper -/

/-- Claim C8 (as stated) is false on two counts: an empty-string key registers
successfully but — being falsy under Python truthiness — never blocks a later
registration under a different key; and a later call with `main_bottom=False`
skips the singleton check entirely.  Both are exhibited here. -/
theorem claim_C8_counterexample :
    promptRegister none "" true = .ok (some "")
    ∧ promptRegister (some "") "a" true = .ok (some "a")
    ∧ "" ≠ "a"
    ∧ promptRegister (some "a") "b" false = .ok (some "a") := by
  decide

/-- Claim C8, amended: once a nonempty key has been registered, a later call
with `main_bottom=True` and a different key raises `RuntimeError`, a call
repeating the key succeeds, and a call with `main_bottom=False` skips the
check and leaves the registration unchanged. -/
theorem claim_C8_singleton (k k' : String) (hk : k ≠ "") :
    (k' ≠ k → promptRegister (some k) k' true = .error .multipleInstances)
    ∧ promptRegister (some k) k true = .ok (some k)
    ∧ promptRegister (some k) k' false = .ok (some k) := by
  refine ⟨?_, ?_, ?_⟩
  · intro hne
    have h1 : pyTruthyKey (some k) = true := by simp [pyTruthyKey, hk]
    have h2 : (some k : Option String) ≠ some k' := by simpa using Ne.symm hne
    simp [promptRegister, h1, h2]
  · simp [promptRegister]
  · rfl

/-- Witness for C8 at concrete keys. -/
theorem claim_C8_witness :
    promptRegister (some "a") "b" true = .error .multipleInstances
    ∧ promptRegister (some "a") "a" true = .ok (some "a")
    ∧ promptRegister (some "a") "b" false = .ok (some "a") :=
  ⟨(claim_C8_singleton "a" "b" (by decide)).1 (by decide),
   (claim_C8_singleton "a" "a" (by decide)).2.1,
   (claim_C8_singleton "a" "b" (by decide)).2.2⟩

/-- A component payload with uuid "A". -/
def cvA : ComponentValue := ⟨some "hi", none, some "A"⟩

/-- A component payload with uuid "B". -/
def cvB : ComponentValue := ⟨some "yo", none, some "B"⟩

/-- Claim C9 (as stated) is false: the session records only the most recent
uuid, so after accepting uuid "A" and then uuid "B", a payload with uuid "A"
is returned to the caller a second time — not "at most once per distinct
uuid", and a call after "A" was recorded does not always return `None` for
"A". -/
theorem claim_C9_counterexample :
    promptHandle none (some cvA) =
      .ok (some "A", some ⟨some "hi", some [], some "A"⟩)
    ∧ promptHandle (some "A") (some cvB) =
      .ok (some "B", some ⟨some "yo", some [], some "B"⟩)
    ∧ promptHandle (some "B") (some cvA) =
      .ok (some "A", some ⟨some "hi", some [], some "A"⟩) := by
  decide

/-- Claim C9, amended: (1) any payload returned to the caller was present,
had a non-`None` uuid different from the *most recently* recorded uuid, and
its uuid is recorded and carried on the returned object; (2) a payload whose
uuid equals the recorded one, or is `None`, yields `None` and leaves the
recorded uuid unchanged; (3) hence the call immediately following an accepted
payload returns `None` for the same uuid. -/
theorem claim_C9_dedup :
    (∀ (prev : Option String) (cvo : Option ComponentValue) (p : Option String)
      (r : PromptReturn), promptHandle prev cvo = .ok (p, some r) →
      ∃ cv, cvo = some cv ∧ cv.uuid ≠ none ∧ cv.uuid ≠ prev ∧ p = cv.uuid
        ∧ r.uuid = cv.uuid)
    ∧ (∀ (prev : Option String) (cv : ComponentValue),
      cv.uuid = prev ∨ cv.uuid = none → promptHandle prev (some cv) = .ok (prev, none))
    ∧ (∀ (prev p : Option String) (cv cv' : ComponentValue) (r : PromptReturn),
      promptHandle prev (some cv) = .ok (p, some r) → cv'.uuid = cv.uuid →
      promptHandle p (some cv') = .ok (p, none)) := by
  have ha : ∀ (prev : Option String) (cvo : Option ComponentValue) (p : Option String)
      (r : PromptReturn), promptHandle prev cvo = .ok (p, some r) →
      ∃ cv, cvo = some cv ∧ cv.uuid ≠ none ∧ cv.uuid ≠ prev ∧ p = cv.uuid
        ∧ r.uuid = cv.uuid := by
    intro prev cvo p r h
    cases cvo with
    | none => simp [promptHandle] at h
    | some cv =>
      simp only [promptHandle] at h
      by_cases hcond : cv.uuid ≠ prev ∧ cv.uuid ≠ none
      · rw [if_pos hcond] at h
        cases hf : processFilesRec (cv.files.getD []) with
        | error e => simp [hf] at h
        | ok pf =>
          simp only [hf] at h
          by_cases hempty : pf = [] ∧ pyTruthyStr cv.text = false
          · rw [if_pos hempty] at h
            simp at h
          · rw [if_neg hempty] at h
            simp only [Except.ok.injEq, Prod.mk.injEq, Option.some.injEq] at h
            exact ⟨cv, rfl, hcond.2, hcond.1, h.1.symm, by rw [← h.2]⟩
      · rw [if_neg hcond] at h
        simp at h
  have hb : ∀ (prev : Option String) (cv : ComponentValue),
      cv.uuid = prev ∨ cv.uuid = none →
      promptHandle prev (some cv) = .ok (prev, none) := by
    intro prev cv hor
    have hnot : ¬(cv.uuid ≠ prev ∧ cv.uuid ≠ none) := by
      rcases hor with h | h
      · exact fun hc => hc.1 h
      · exact fun hc => hc.2 h
    simp only [promptHandle]
    rw [if_neg hnot]
  refine ⟨ha, hb, ?_⟩
  intro prev p cv cv' r h hsame
  obtain ⟨cv2, hcv2, hnn, hne, hp, hr⟩ := ha prev (some cv) p r h
  injection hcv2 with hcv2e
  subst hcv2e
  exact hb p cv' (Or.inl (by rw [hsame, hp]))

/-- Witness for C9: after accepting uuid "A", the immediately following call
carrying the same uuid returns `None`. -/
theorem claim_C9_witness :
    promptHandle (some "A") (some cvA) = .ok (some "A", none) :=
  claim_C9_dedup.2.1 (some "A") cvA (Or.inl rfl)

/-- Claim C10: marshaling a default `PromptReturn` whose `files` field is
present builds `processed_files` as the legacy-images entries followed by the
files entries — so every image file appears twice (once via the `images`
property with name "image", once via the files loop) and every non-image file
exactly once — with `text` marshaled as `default.text or ""` and `uuid`
always `None`.  The multiplicity statement counts occurrences of each file's
data URI, assuming the files carry pairwise distinct data URIs. -/
theorem claim_C10_default_marshal (d : PromptReturn) (fs : List FileData)
    (hfs : d.files = some fs) :
    marshalDefault (some d) =
      some ⟨pyOr d.text "",
        (fs.filter (fun f => f.is_image)).map marshalImageEntry ++ fs.map marshalFileEntry,
        none⟩
    ∧ ((fs.map fileDataURI).Nodup → ∀ f ∈ fs,
      (((fs.filter (fun f => f.is_image)).map marshalImageEntry
        ++ fs.map marshalFileEntry).map ProcessedEntry.data).count (fileDataURI f) =
        if f.is_image then 2 else 1) := by
  constructor
  · simp [marshalDefault, PromptReturn.images, hfs]
  · intro hnd f hf
    have hmap : ((fs.filter (fun f => f.is_image)).map marshalImageEntry
        ++ fs.map marshalFileEntry).map ProcessedEntry.data =
        (fs.filter (fun f => f.is_image)).map fileDataURI ++ fs.map fileDataURI := by
      simp only [List.map_append, List.map_map]
      rfl
    rw [hmap, List.count_append]
    have h2 : (fs.map fileDataURI).count (fileDataURI f) = 1 :=
      List.count_eq_one_of_mem hnd (List.mem_map_of_mem fileDataURI hf)
    by_cases hi : f.is_image = true
    · have hmemf : f ∈ fs.filter (fun f => f.is_image) :=
        List.mem_filter.mpr ⟨hf, hi⟩
      have hnd1 : ((fs.filter (fun f => f.is_image)).map fileDataURI).Nodup :=
        hnd.sublist ((List.filter_sublist fs).map fileDataURI)
      have h1 : ((fs.filter (fun f => f.is_image)).map fileDataURI).count
          (fileDataURI f) = 1 :=
        List.count_eq_one_of_mem hnd1 (List.mem_map_of_mem fileDataURI hmemf)
      rw [h1, h2, if_pos hi]
    · have hnotmem : fileDataURI f ∉ (fs.filter (fun f => f.is_image)).map fileDataURI := by
        intro hmem
        obtain ⟨g, hgfilter, hgeq⟩ := List.mem_map.mp hmem
        have hgfs : g ∈ fs := (List.mem_filter.mp hgfilter).1
        have hgim : g.is_image = true := (List.mem_filter.mp hgfilter).2
        have hgf : g = f := List.inj_on_of_nodup_map hnd hgfs hf hgeq
        exact hi (hgf ▸ hgim)
      have h1 : ((fs.filter (fun f => f.is_image)).map fileDataURI).count
          (fileDataURI f) = 0 :=
        List.count_eq_zero.mpr hnotmem
      rw [h1, h2, if_neg hi]

/-- A concrete image attachment. -/
def fImg : FileData := ⟨"image/png", "base64", "III", some "pic", none, none⟩

/-- A concrete non-image attachment. -/
def fDoc : FileData := ⟨"application/pdf", "base64", "DDD", none, none, none⟩

/-- A concrete default `PromptReturn` with one image and one document. -/
def dDefault : PromptReturn := ⟨some "hello", some [fImg, fDoc], none⟩

/-- Witness for C10 at a concrete default with one image and one document. -/
theorem claim_C10_witness :
    marshalDefault (some dDefault) =
      some ⟨pyOr dDefault.text "",
        ([fImg, fDoc].filter (fun f => f.is_image)).map marshalImageEntry
          ++ [fImg, fDoc].map marshalFileEntry,
        none⟩
    ∧ (([fImg, fDoc].map fileDataURI).Nodup → ∀ f ∈ [fImg, fDoc],
      ((([fImg, fDoc].filter (fun f => f.is_image)).map marshalImageEntry
        ++ [fImg, fDoc].map marshalFileEntry).map ProcessedEntry.data).count
          (fileDataURI f) = if f.is_image then 2 else 1) :=
  claim_C10_default_marshal dDefault [fImg, fDoc] rfl
